import Mathlib

set_option maxHeartbeats 1000000

/-
Verification development for the tv-rename tool (src/tv_rename.py).

Strings are modelled as Lean `String`s processed through their character
lists.  The regex character classes \d and \s and `str.lower` are modelled
over their ASCII ranges (the tool's filename conventions are ASCII apart
from the CJK literals, which are matched verbatim); `pathlib.Path` stem and
suffix are modelled on the plain file name (listing entries carry no path
separators).
-/

-- ─────────────────────────────────────────────────────────────
-- Character and string utilities
-- ─────────────────────────────────────────────────────────────

def isDigitC (c : Char) : Bool := 48 ≤ c.toNat && c.toNat ≤ 57

def digitVal (c : Char) : Nat := c.toNat - 48

def isSpaceC (c : Char) : Bool :=
  c = ' ' || c = '\t' || c = '\n' || c = '\r' || c.toNat = 11 || c.toNat = 12

def asciiLowerC (c : Char) : Char :=
  if 65 ≤ c.toNat && c.toNat ≤ 90 then Char.ofNat (c.toNat + 32) else c

def asciiLower (l : List Char) : List Char := l.map asciiLowerC

def lowEq (c t : Char) : Bool := asciiLowerC c = t

def parseDigs (l : List Char) : Nat := l.foldl (fun a c => a * 10 + digitVal c) 0

/-- Index of the first character satisfying `p`. -/
def firstIdx (p : Char → Bool) : List Char → Option Nat
  | [] => none
  | c :: rest => if p c then some 0 else (firstIdx p rest).map (· + 1)

/-- Model of `pathlib.PurePath` stem/suffix on a bare file name: the suffix
starts at the last dot provided that dot is neither the first nor the last
character; otherwise the suffix is empty. -/
def splitName (l : List Char) : List Char × List Char :=
  match firstIdx (fun c => c == '.') l.reverse with
  | none => (l, [])
  | some j =>
    if 1 ≤ j ∧ j + 1 < l.length then
      (l.take (l.length - (j + 1)), l.drop (l.length - (j + 1)))
    else (l, [])

def pySuffix (name : String) : String := String.mk (splitName name.data).2

def strLower (s : String) : String := String.mk (asciiLower s.data)

/-- Model of Python `str.replace("//", "/")` (left-to-right, non-overlapping). -/
def squashSlashes : List Char → List Char
  | '/' :: '/' :: rest => '/' :: squashSlashes rest
  | c :: rest => c :: squashSlashes rest
  | [] => []

def joinPath (path name : String) : String :=
  String.mk (squashSlashes (path ++ "/" ++ name).data)

-- ─────────────────────────────────────────────────────────────
-- The six recognition rules of TVRenamer.PATTERNS
-- ─────────────────────────────────────────────────────────────

/-- Result of one regex rule: a two-group (season, episode) capture or a
one-group (episode) capture. -/
inductive RuleHit where
  | two (s e : Nat)
  | one (e : Nat)
  deriving DecidableEq

/-- Pattern 1, `[Ss](\d+)[Ee](\d+)`, matched at the head of the list. -/
def rule1At : List Char → Option RuleHit
  | c :: rest =>
    if lowEq c 's' then
      let d1 := rest.takeWhile isDigitC
      if d1 = [] then none
      else
        match rest.dropWhile isDigitC with
        | e :: r2 =>
          if lowEq e 'e' then
            let d2 := r2.takeWhile isDigitC
            if d2 = [] then none else some (RuleHit.two (parseDigs d1) (parseDigs d2))
          else none
        | [] => none
    else none
  | [] => none

/-- Case-insensitively consume a literal; returns the remainder on success. -/
def dropLitCI : List Char → List Char → Option (List Char)
  | [], l => some l
  | _ :: _, [] => none
  | t :: ts, c :: cs => if lowEq c t then dropLitCI ts cs else none

def seasonChars : List Char := ['s', 'e', 'a', 's', 'o', 'n']

def episodeChars : List Char := ['e', 'p', 'i', 's', 'o', 'd', 'e']

def isSepC (c : Char) : Bool := isSpaceC c || c = '_' || c = '.'

/-- Pattern 2, `[Ss]eason\s*(\d+)[\s_.]*[Ee]pisode\s*(\d+)`, at the head. -/
def rule2At (l : List Char) : Option RuleHit :=
  match dropLitCI seasonChars l with
  | none => none
  | some r1 =>
    let r2 := r1.dropWhile isSpaceC
    let d1 := r2.takeWhile isDigitC
    if d1 = [] then none
    else
      let r3 := (r2.dropWhile isDigitC).dropWhile isSepC
      match dropLitCI episodeChars r3 with
      | none => none
      | some r4 =>
        let r5 := r4.dropWhile isSpaceC
        let d2 := r5.takeWhile isDigitC
        if d2 = [] then none else some (RuleHit.two (parseDigs d1) (parseDigs d2))

def rule3Try (g1 : List Char) : List Char → Option RuleHit
  | x :: d1 :: d2 :: _ =>
    if lowEq x 'x' && isDigitC d1 && isDigitC d2 then
      some (RuleHit.two (parseDigs g1) (parseDigs [d1, d2]))
    else none
  | _ => none

/-- Pattern 3, `(\d{1,2})x(\d{2})`, at the head; the greedy first group
prefers two digits and backtracks to one. -/
def rule3At : List Char → Option RuleHit
  | a :: b :: rest =>
    if isDigitC a then
      if isDigitC b then
        match rule3Try [a, b] rest with
        | some h => some h
        | none => rule3Try [a] (b :: rest)
      else rule3Try [a] (b :: rest)
    else none
  | _ => none

/-- Pattern 4, `第\s*(\d+)\s*[集話]`, at the head. -/
def rule4At : List Char → Option RuleHit
  | c :: rest =>
    if c = '第' then
      let r1 := rest.dropWhile isSpaceC
      let d := r1.takeWhile isDigitC
      if d = [] then none
      else
        match (r1.dropWhile isDigitC).dropWhile isSpaceC with
        | k :: _ => if k = '集' || k = '話' then some (RuleHit.one (parseDigs d)) else none
        | [] => none
    else none
  | [] => none

/-- Pattern 5, `[Ee][Pp]?(\d{2,})`, at the head. -/
def rule5At : List Char → Option RuleHit
  | c :: rest =>
    if lowEq c 'e' then
      let r2 :=
        match rest with
        | p :: tl => if lowEq p 'p' then tl else p :: tl
        | [] => []
      let d := r2.takeWhile isDigitC
      if 2 ≤ d.length then some (RuleHit.one (parseDigs d)) else none
    else none
  | [] => none

/-- Pattern 6, `(\d{2,})\s*[集話]`, at the head. -/
def rule6At (l : List Char) : Option RuleHit :=
  let d := l.takeWhile isDigitC
  if 2 ≤ d.length then
    match (l.dropWhile isDigitC).dropWhile isSpaceC with
    | k :: _ => if k = '集' || k = '話' then some (RuleHit.one (parseDigs d)) else none
    | [] => none
  else none

/-- `re.search` semantics: try the rule at every position, leftmost first. -/
def searchWith (m : List Char → Option RuleHit) : List Char → Option RuleHit
  | [] => m []
  | c :: rest =>
    match m (c :: rest) with
    | some h => some h
    | none => searchWith m rest

def RULE1 (stem : List Char) : Option RuleHit := searchWith rule1At stem

def RULE2 (stem : List Char) : Option RuleHit := searchWith rule2At stem

def RULE3 (stem : List Char) : Option RuleHit := searchWith rule3At stem

def RULE4 (stem : List Char) : Option RuleHit := searchWith rule4At stem

def RULE5 (stem : List Char) : Option RuleHit := searchWith rule5At stem

def RULE6 (stem : List Char) : Option RuleHit := searchWith rule6At stem

/-- `TVRenamer.PATTERNS` in priority order. -/
def RULES : List (List Char → Option RuleHit) := [RULE1, RULE2, RULE3, RULE4, RULE5, RULE6]

-- ─────────────────────────────────────────────────────────────
-- parse_episode
-- ─────────────────────────────────────────────────────────────

structure EpisodeInfo where
  season : Nat
  episode : Nat
  title : Option String
  original_name : String
  file_size : Option Nat
  file_path : String
  deriving DecidableEq

/-- The rule loop of `TVRenamer.parse_episode`: the `season` variable is
threaded across iterations (a two-group match assigns it even when its
episode is 0), and a match whose episode is 0 falls through to the next
rule. -/
def parse_go (fn : String) : List (List Char → Option RuleHit) → Nat → List Char → Option EpisodeInfo
  | [], _, _ => none
  | r :: rs, season, stem =>
    match r stem with
    | none => parse_go fn rs season stem
    | some (RuleHit.two s e) =>
      if e ≠ 0 then some ⟨s, e, none, fn, none, ""⟩ else parse_go fn rs s stem
    | some (RuleHit.one e) =>
      if e ≠ 0 then some ⟨season, e, none, fn, none, ""⟩ else parse_go fn rs season stem

def parse_episode (filename : String) : Option EpisodeInfo :=
  parse_go filename RULES 1 (splitName filename.data).1

-- ─────────────────────────────────────────────────────────────
-- Name generation and templates
-- ─────────────────────────────────────────────────────────────

def VIDEO_EXTS : List String :=
  [".mp4", ".mkv", ".avi", ".mov", ".wmv", ".flv", ".webm", ".m4v", ".ts", ".rmvb"]

/-- Decimal digits of `n`, most significant first (fuel-driven so that it
reduces in the kernel). -/
def natToDigsAux : Nat → Nat → List Char
  | 0, _ => []
  | fuel + 1, n =>
    if n = 0 then [] else natToDigsAux fuel (n / 10) ++ [Nat.digitChar (n % 10)]

def natToDigits (n : Nat) : List Char := if n = 0 then ['0'] else natToDigsAux n n

def padZeros (w : Nat) (l : List Char) : List Char := List.replicate (w - l.length) '0' ++ l

/-- A fragment of a Python format template: literal text or a zero-padded
`season`/`episode` field of the given minimum width. -/
inductive TPart where
  | lit (s : String)
  | seasonField (width : Nat)
  | episodeField (width : Nat)
  deriving DecidableEq

def renderField (w v : Nat) : String := String.mk (padZeros w (natToDigits v))

def renderParts (season episode : Nat) : List TPart → String
  | [] => ""
  | TPart.lit s :: rest => s ++ renderParts season episode rest
  | TPart.seasonField w :: rest => renderField w season ++ renderParts season episode rest
  | TPart.episodeField w :: rest => renderField w episode ++ renderParts season episode rest

/-- `template.format(season=..., episode=...)` for a well-formed template
(the `Option` mirrors the code's `None` on a formatting failure, which a
structured template never triggers). -/
def renderTemplate (t : List TPart) (season episode : Nat) : Option String :=
  some (renderParts season episode t)

/-- The default template `S{season:02d}E{episode:02d}` of the tool. -/
def defaultTemplate : List TPart :=
  [TPart.lit "S", TPart.seasonField 2, TPart.lit "E", TPart.episodeField 2]

def defaultRender : Nat → Nat → Option String := renderTemplate defaultTemplate

/-- An adversarial template, `E{episode:02d}x{season:02d}`. -/
def badTemplate : List TPart :=
  [TPart.lit "E", TPart.episodeField 2, TPart.lit "x", TPart.seasonField 2]

/-- `TVRenamer.generate_new_name`, parametrised by the template's render
function (the code depends on the template only through
`template.format(season=..., episode=...)`). -/
def generate_new_name (render : Nat → Nat → Option String) (info : EpisodeInfo) : Option String :=
  if strLower (pySuffix info.original_name) ∈ VIDEO_EXTS then
    match render info.season info.episode with
    | some base => some (base ++ strLower (pySuffix info.original_name))
    | none => none
  else none

-- ─────────────────────────────────────────────────────────────
-- Directory listings (storage backends)
-- ─────────────────────────────────────────────────────────────

/-- A listing entry as the backends see it: a dict whose `is_dir` (and, for
the cloud-netdisk raw listing, `isdir`) keys may be absent. -/
structure RemoteFile where
  name : String
  is_dir : Option Bool
  isdir : Option Int
  size : Option Nat
  deriving DecidableEq

/-- Python `x == False` on an optional boolean field (absent compares
unequal). -/
def pyEqFalse : Option Bool → Bool
  | some b => !b
  | none => false

/-- `AlistStorage.list_files`: keep entries whose `is_dir` equals `False`. -/
def alist_list_files (content : List RemoteFile) : List RemoteFile :=
  content.filter (fun f => pyEqFalse f.is_dir)

/-- `BaiduStorage.list_folders` normalisation: `is_dir` is set from the raw
`isdir` field (`isdir == 1`). -/
def baiduNormalize (f : RemoteFile) : RemoteFile :=
  { f with is_dir := some (decide (f.isdir = some 1)) }

/-- `BaiduStorage.list_files`: normalise, then the same `is_dir == False`
filter. -/
def baidu_list_files (raw : List RemoteFile) : List RemoteFile :=
  (raw.map baiduNormalize).filter (fun f => pyEqFalse f.is_dir)

-- ─────────────────────────────────────────────────────────────
-- The planning loop of process_directory
-- ─────────────────────────────────────────────────────────────

/-- How the loop body of `TVRenamer.process_directory` classifies one file
name. -/
inductive FileClass where
  | nonVideo
  | unparseable
  | renderFailed (info : EpisodeInfo)
  | alreadyCorrect (info : EpisodeInfo)
  | change (info : EpisodeInfo) (newName : String)
  deriving DecidableEq

def classify (render : Nat → Nat → Option String) (filename : String) : FileClass :=
  if strLower (pySuffix filename) ∈ VIDEO_EXTS then
    match parse_episode filename with
    | none => FileClass.unparseable
    | some info =>
      match generate_new_name render info with
      | none => FileClass.renderFailed info
      | some nn =>
        if nn = filename then FileClass.alreadyCorrect info else FileClass.change info nn
  else FileClass.nonVideo

structure PlanOut where
  episodes : List EpisodeInfo
  changes : List (String × String)
  skipped : List String
  unparseable : List String
  deriving DecidableEq

def setPath (path : String) (info : EpisodeInfo) : EpisodeInfo :=
  { info with file_path := joinPath path info.original_name }

/-- One iteration of the `process_directory` loop, appending to the
accumulators according to the file's class. -/
def planCons (path name : String) (fc : FileClass) (out : PlanOut) : PlanOut :=
  match fc with
  | FileClass.nonVideo => { out with skipped := name :: out.skipped }
  | FileClass.unparseable => { out with unparseable := name :: out.unparseable }
  | FileClass.renderFailed info => { out with episodes := setPath path info :: out.episodes }
  | FileClass.alreadyCorrect info =>
    { out with episodes := setPath path info :: out.episodes, skipped := name :: out.skipped }
  | FileClass.change info nn =>
    { out with episodes := setPath path info :: out.episodes,
               changes := (name, nn) :: out.changes }

def plan_go (render : Nat → Nat → Option String) (path : String) : List RemoteFile → PlanOut
  | [] => ⟨[], [], [], []⟩
  | f :: rest => planCons path f.name (classify render f.name) (plan_go render path rest)

/-- `TVRenamer.process_directory` restricted to its planning result (the
console statistics are presentation only); `files` is the list returned by
the backend's `list_files`. -/
def process_directory (render : Nat → Nat → Option String) (path : String)
    (files : List RemoteFile) : List EpisodeInfo × List (String × String) :=
  if files = [] then ([], [])
  else ((plan_go render path files).episodes, (plan_go render path files).changes)

/-- The name a file carries after the produced plan has been fully applied:
its planned new name if the planner emitted a change for it, otherwise its
old name. -/
def newNameOf (render : Nat → Nat → Option String) (name : String) : String :=
  match classify render name with
  | FileClass.change _ nn => nn
  | _ => name

def applyNames (render : Nat → Nat → Option String) (files : List RemoteFile) : List RemoteFile :=
  files.map (fun f => { f with name := newNameOf render f.name })

-- ─────────────────────────────────────────────────────────────
-- apply_changes
-- ─────────────────────────────────────────────────────────────

structure RenameResult where
  success : Bool
  old_name : String
  new_name : String
  error : Option String
  deriving DecidableEq

/-- The body of the `apply_changes` loop for one change; `rename` is the
backend's (retry-wrapped) `rename_file`, which either returns a Bool or
raises. -/
def applyOne (rename : String → String → Except String Bool) (path : String)
    (c : String × String) : RenameResult :=
  match rename (joinPath path c.1) c.2 with
  | Except.ok true => ⟨true, c.1, c.2, none⟩
  | Except.ok false => ⟨false, c.1, c.2, some "API 返回失败"⟩
  | Except.error e => ⟨false, c.1, c.2, some e⟩

/-- `TVRenamer.apply_changes`: one result per change, in input order. -/
def apply_changes (rename : String → String → Except String Bool) (path : String) :
    List (String × String) → List RenameResult
  | [] => []
  | c :: rest => applyOne rename path c :: apply_changes rename path rest

-- ─────────────────────────────────────────────────────────────
-- The retry decorator
-- ─────────────────────────────────────────────────────────────

/-- The `while attempts < max_attempts` loop of `retry`: `fuel` is the number
of remaining permitted attempts and `k` the index of the next invocation.
The result records what the wrapper produces (`none` models falling off the
loop and returning Python `None`; `some (ok a)` a normal return; `some
(error e)` a propagated exception) together with how many times the wrapped
operation was invoked. -/
def retryRun {E A : Type} (op : Nat → Except E A) : Nat → Nat → Option (Except E A) × Nat
  | 0, _ => (none, 0)
  | 1, k => (some (op k), 1)
  | fuel + 2, k =>
    match op k with
    | Except.ok a => (some (Except.ok a), 1)
    | Except.error _ =>
      ((retryRun op (fuel + 1) (k + 1)).1, (retryRun op (fuel + 1) (k + 1)).2 + 1)

/-- The `retry(max_attempts=...)` decorator applied to an operation (the
delay/backoff waits are timing only and drop out of the model). -/
def retry {E A : Type} (maxAttempts : Int) (op : Nat → Except E A) :
    Option (Except E A) × Nat :=
  retryRun op maxAttempts.toNat 0

-- ─────────────────────────────────────────────────────────────
-- Backend rename_file normalisation
-- ─────────────────────────────────────────────────────────────

/-- A parsed Alist response body. -/
structure AlistResp where
  code : Option Int
  message : Option String
  deriving DecidableEq

/-- A parsed cloud-netdisk response body. -/
structure BaiduResp where
  errno : Option Int
  errmsg : Option String
  deriving DecidableEq

/-- One un-retried invocation of `AlistStorage.rename_file`: a transport
failure is an exception; a well-formed response maps `code == 200` to `True`
and anything else to `False`. -/
def alist_rename_raw (resp : Nat → Except String AlistResp) (k : Nat) : Except String Bool :=
  match resp k with
  | Except.error e => Except.error e
  | Except.ok r => Except.ok (if r.code = some 200 then true else false)

/-- `AlistStorage.rename_file` as decorated with `retry(max_attempts=3)`. -/
def alist_rename_file (resp : Nat → Except String AlistResp) :
    Option (Except String Bool) × Nat :=
  retry 3 (alist_rename_raw resp)

/-- One un-retried invocation of `BaiduStorage.rename_file`: `errno == 0`
maps to `True`, other well-formed responses to `False`, transport failures
raise. -/
def baidu_rename_raw (resp : Nat → Except String BaiduResp) (k : Nat) : Except String Bool :=
  match resp k with
  | Except.error e => Except.error e
  | Except.ok r => Except.ok (if r.errno = some 0 then true else false)

/-- `BaiduStorage.rename_file` as decorated with `retry(max_attempts=3)`. -/
def baidu_rename_file (resp : Nat → Except String BaiduResp) :
    Option (Except String Bool) × Nat :=
  retry 3 (baidu_rename_raw resp)

-- ─────────────────────────────────────────────────────────────
-- Ingredients for the priority-determinism statements
-- ─────────────────────────────────────────────────────────────

/-- Whether a rule outcome is a match with a nonzero episode (the only kind
of match on which `parse_episode` returns). -/
def posHit : Option RuleHit → Bool
  | some (RuleHit.two _ e) => e != 0
  | some (RuleHit.one e) => e != 0
  | none => false

/-- The value of the loop's `season` variable after the given rules have run
on `stem` (a two-group match assigns it, everything else leaves it). -/
def seasonAfter (rules : List (List Char → Option RuleHit)) (s0 : Nat) (stem : List Char) : Nat :=
  rules.foldl
    (fun s r =>
      match r stem with
      | some (RuleHit.two s2 _) => s2
      | _ => s)
    s0

/-- The EpisodeInfo a rule hit produces, given the current season default. -/
def interpInfo (fn : String) (s : Nat) : RuleHit → EpisodeInfo
  | RuleHit.two s2 e => ⟨s2, e, none, fn, none, ""⟩
  | RuleHit.one e => ⟨s, e, none, fn, none, ""⟩

-- ─────────────────────────────────────────────────────────────
-- Helper lemmas: strings and lists
-- ─────────────────────────────────────────────────────────────

theorem str_data_append (a b : String) : (a ++ b).data = a.data ++ b.data := by
  cases a; cases b; rfl

theorem str_ext (a b : String) (h : a.data = b.data) : a = b := by
  cases a; cases b; cases h; rfl

theorem takeWhile_all (p : Char → Bool) :
    ∀ l : List Char, (∀ c ∈ l, p c = true) → l.takeWhile p = l := by
  intro l
  induction l with
  | nil => intro _; rfl
  | cons a l ih =>
    intro h
    have ha : p a = true := h a (List.mem_cons_self a l)
    simp [List.takeWhile, ha]
    intro c hc
    exact h c (List.mem_cons_of_mem a hc)

theorem takeWhile_stop (p : Char → Bool) (l : List Char) (x : Char) (r : List Char)
    (hl : ∀ c ∈ l, p c = true) (hx : p x = false) :
    (l ++ x :: r).takeWhile p = l ∧ (l ++ x :: r).dropWhile p = x :: r := by
  induction l with
  | nil => simp [List.takeWhile, List.dropWhile, hx]
  | cons a l ih =>
    have ha : p a = true := hl a (List.mem_cons_self a l)
    have hrec := ih (fun c hc => hl c (List.mem_cons_of_mem a hc))
    constructor
    · simp [List.takeWhile, ha, hrec.1]
    · simp [List.dropWhile, ha, hrec.2]

theorem take_len_append (l r : List Char) : (l ++ r).take l.length = l := by
  induction l with
  | nil => rfl
  | cons a l ih => simp [List.take, ih]

theorem drop_len_append (l r : List Char) : (l ++ r).drop l.length = r := by
  induction l with
  | nil => rfl
  | cons a l ih => simp [List.drop, ih]

theorem firstIdx_append (p : Char → Bool) (l : List Char) (x : Char) (r : List Char)
    (hl : ∀ c ∈ l, p c = false) (hx : p x = true) :
    firstIdx p (l ++ x :: r) = some l.length := by
  induction l with
  | nil => simp [firstIdx, hx]
  | cons a l ih =>
    have ha : p a = false := hl a (List.mem_cons_self a l)
    simp [firstIdx, ha, ih (fun c hc => hl c (List.mem_cons_of_mem a hc))]

/-- Locating the suffix when the name is a dot-free nonempty stem followed by
a dot-initial extension. -/
theorem splitName_of_ext (base t : List Char)
    (hb : 0 < base.length) (ht : 0 < t.length)
    (htail : ∀ c ∈ t, (c == '.') = false) :
    splitName (base ++ '.' :: t) = (base, '.' :: t) := by
  have hrev : (base ++ '.' :: t).reverse = t.reverse ++ '.' :: base.reverse := by
    rw [List.reverse_append, List.reverse_cons]
    simp [List.append_assoc]
  have hidx : firstIdx (fun c => c == '.') (base ++ '.' :: t).reverse = some t.length := by
    rw [hrev, firstIdx_append (fun c => c == '.') t.reverse '.' base.reverse
      (fun c hc => htail c (List.mem_reverse.mp hc)) rfl]
    simp
  have hlen : (base ++ '.' :: t).length = base.length + t.length + 1 := by
    simp only [List.length_append, List.length_cons]
    omega
  unfold splitName
  simp only [hidx]
  rw [if_pos (by omega : 1 ≤ t.length ∧ t.length + 1 < (base ++ '.' :: t).length)]
  have hcut : (base ++ '.' :: t).length - (t.length + 1) = base.length := by omega
  rw [hcut, take_len_append base ('.' :: t), drop_len_append base ('.' :: t)]

-- ─────────────────────────────────────────────────────────────
-- Helper lemmas: decimal digits
-- ─────────────────────────────────────────────────────────────

theorem digitVal_digitChar (d : Nat) (h : d < 10) : digitVal (Nat.digitChar d) = d := by
  interval_cases d <;> rfl

theorem isDigitC_digitChar (d : Nat) (h : d < 10) : isDigitC (Nat.digitChar d) = true := by
  interval_cases d <;> rfl

theorem parseDigs_append_one (l : List Char) (c : Char) :
    parseDigs (l ++ [c]) = parseDigs l * 10 + digitVal c := by
  unfold parseDigs
  rw [List.foldl_append]
  rfl

theorem parseDigs_repz (k : Nat) (l : List Char) :
    parseDigs (List.replicate k '0' ++ l) = parseDigs l := by
  induction k with
  | zero => rfl
  | succ k ih =>
    have h : List.replicate (k + 1) '0' ++ l = '0' :: (List.replicate k '0' ++ l) := by
      simp [List.replicate_succ]
    rw [h]
    unfold parseDigs
    rw [List.foldl_cons]
    have h0 : (0 : Nat) * 10 + digitVal '0' = 0 := rfl
    rw [h0]
    exact ih

theorem natToDigsAux_spec :
    ∀ fuel n, n ≤ fuel →
      parseDigs (natToDigsAux fuel n) = n ∧
      (∀ c ∈ natToDigsAux fuel n, isDigitC c = true) ∧
      (n ≠ 0 → natToDigsAux fuel n ≠ []) := by
  intro fuel
  induction fuel with
  | zero =>
    intro n hn
    have h0 : n = 0 := Nat.le_zero.mp hn
    subst h0
    refine ⟨rfl, ?_, fun h => absurd rfl h⟩
    intro c hc
    simp [natToDigsAux] at hc
  | succ fuel ih =>
    intro n hn
    by_cases h0 : n = 0
    · subst h0
      refine ⟨rfl, ?_, fun h => absurd rfl h⟩
      intro c hc
      simp [natToDigsAux] at hc
    · have hdiv : n / 10 ≤ fuel := by
        have h1 : n / 10 < n := Nat.div_lt_self (Nat.pos_of_ne_zero h0) (by norm_num)
        omega
      obtain ⟨ihp, ihd, _⟩ := ih (n / 10) hdiv
      have heq : natToDigsAux (fuel + 1) n =
          natToDigsAux fuel (n / 10) ++ [Nat.digitChar (n % 10)] := by
        simp [natToDigsAux, h0]
      have hm : n % 10 < 10 := Nat.mod_lt n (by norm_num)
      refine ⟨?_, ?_, ?_⟩
      · rw [heq, parseDigs_append_one, ihp, digitVal_digitChar (n % 10) hm]
        omega
      · rw [heq]
        intro c hc
        rcases List.mem_append.mp hc with h | h
        · exact ihd c h
        · have hc2 : c = Nat.digitChar (n % 10) := by simpa using h
          rw [hc2]
          exact isDigitC_digitChar _ hm
      · intro _
        rw [heq]
        simp

theorem natToDigits_spec (n : Nat) :
    parseDigs (natToDigits n) = n ∧
    (∀ c ∈ natToDigits n, isDigitC c = true) ∧ natToDigits n ≠ [] := by
  by_cases h : n = 0
  · subst h
    exact ⟨rfl, by decide, by decide⟩
  · have hs := natToDigsAux_spec n n (le_refl n)
    unfold natToDigits
    rw [if_neg h]
    exact ⟨hs.1, hs.2.1, hs.2.2 h⟩

theorem pad2_spec (w n : Nat) :
    parseDigs (padZeros w (natToDigits n)) = n ∧
    (∀ c ∈ padZeros w (natToDigits n), isDigitC c = true) ∧
    padZeros w (natToDigits n) ≠ [] := by
  obtain ⟨h1, h2, h3⟩ := natToDigits_spec n
  refine ⟨by rw [padZeros, parseDigs_repz, h1], ?_, ?_⟩
  · intro c hc
    rcases List.mem_append.mp hc with h | h
    · have hc2 : c = '0' := List.eq_of_mem_replicate h
      rw [hc2]; rfl
    · exact h2 c h
  · intro h
    rcases List.append_eq_nil.mp h with ⟨_, h4⟩
    exact h3 h4

theorem digit_not_dot (c : Char) (hc : isDigitC c = true) : (c == '.') = false := by
  by_contra h
  have hb : (c == '.') = true := by
    cases hcb : c == '.' with
    | true => rfl
    | false => exact absurd hcb h
  have : c = '.' := by exact beq_iff_eq.mp hb
  subst this
  simp [isDigitC] at hc

-- ─────────────────────────────────────────────────────────────
-- Helper lemmas: the rule loop of parse_episode
-- ─────────────────────────────────────────────────────────────

theorem parse_go_facts (fn : String) :
    ∀ (rules : List (List Char → Option RuleHit)) (s0 : Nat) (stem : List Char)
      (info : EpisodeInfo),
      parse_go fn rules s0 stem = some info →
      1 ≤ info.episode ∧ info.original_name = fn ∧ info.title = none ∧
        info.file_size = none ∧ info.file_path = "" := by
  intro rules
  induction rules with
  | nil =>
    intro s0 stem info h
    simp [parse_go] at h
  | cons r rs ih =>
    intro s0 stem info h
    rw [parse_go] at h
    cases hr : r stem with
    | none =>
      simp only [hr] at h
      exact ih s0 stem info h
    | some hit =>
      cases hit with
      | two s e =>
        simp only [hr] at h
        by_cases he : e ≠ 0
        · rw [if_pos he] at h
          cases h
          exact ⟨Nat.one_le_iff_ne_zero.mpr he, rfl, rfl, rfl, rfl⟩
        · rw [if_neg he] at h
          exact ih s stem info h
      | one e =>
        simp only [hr] at h
        by_cases he : e ≠ 0
        · rw [if_pos he] at h
          cases h
          exact ⟨Nat.one_le_iff_ne_zero.mpr he, rfl, rfl, rfl, rfl⟩
        · rw [if_neg he] at h
          exact ih s0 stem info h

theorem parse_go_isSome (fn : String) :
    ∀ (rules : List (List Char → Option RuleHit)) (s0 : Nat) (stem : List Char),
      (parse_go fn rules s0 stem).isSome = rules.any (fun r => posHit (r stem)) := by
  intro rules
  induction rules with
  | nil => intro s0 stem; rfl
  | cons r rs ih =>
    intro s0 stem
    rw [parse_go, List.any_cons]
    cases hr : r stem with
    | none =>
      simp only [hr, posHit, Bool.false_or]
      exact ih s0 stem
    | some hit =>
      cases hit with
      | two s e =>
        simp only [hr]
        by_cases he : e ≠ 0
        · rw [if_pos he]
          simp [posHit, he]
        · have he0 : e = 0 := by omega
          subst he0
          rw [if_neg he]
          have hh : posHit (some (RuleHit.two s 0)) = false := by simp [posHit]
          rw [hh, Bool.false_or]
          exact ih s stem
      | one e =>
        simp only [hr]
        by_cases he : e ≠ 0
        · rw [if_pos he]
          simp [posHit, he]
        · have he0 : e = 0 := by omega
          subst he0
          rw [if_neg he]
          have hh : posHit (some (RuleHit.one 0)) = false := by simp [posHit]
          rw [hh, Bool.false_or]
          exact ih s0 stem

theorem seasonAfter_nil (s0 : Nat) (stem : List Char) : seasonAfter [] s0 stem = s0 := rfl

theorem parse_go_split (fn : String) :
    ∀ (rs1 : List (List Char → Option RuleHit)) (r : List Char → Option RuleHit)
      (rs2 : List (List Char → Option RuleHit)) (s0 : Nat) (stem : List Char) (hit : RuleHit),
      (∀ r2 ∈ rs1, posHit (r2 stem) = false) → r stem = some hit →
      posHit (some hit) = true →
      parse_go fn (rs1 ++ r :: rs2) s0 stem =
        some (interpInfo fn (seasonAfter rs1 s0 stem) hit) := by
  intro rs1
  induction rs1 with
  | nil =>
    intro r rs2 s0 stem hit _ hr hpos
    rw [List.nil_append, parse_go]
    cases hit with
    | two s e =>
      have he : e ≠ 0 := by simpa [posHit] using hpos
      simp only [hr]
      rw [if_pos he]
      rfl
    | one e =>
      have he : e ≠ 0 := by simpa [posHit] using hpos
      simp only [hr]
      rw [if_pos he]
      rfl
  | cons r2 rs1 ih =>
    intro r rs2 s0 stem hit hpre hr hpos
    have h2 : posHit (r2 stem) = false := hpre r2 (List.mem_cons_self _ _)
    have hpre2 : ∀ x ∈ rs1, posHit (x stem) = false :=
      fun x hx => hpre x (List.mem_cons_of_mem _ hx)
    rw [List.cons_append, parse_go]
    cases hr2 : r2 stem with
    | none =>
      simp only [hr2]
      rw [ih r rs2 s0 stem hit hpre2 hr hpos]
      have hs : seasonAfter (r2 :: rs1) s0 stem = seasonAfter rs1 s0 stem := by
        unfold seasonAfter
        rw [List.foldl_cons]
        simp only [hr2]
      rw [hs]
    | some hit2 =>
      cases hit2 with
      | two s2 e2 =>
        have he0 : e2 = 0 := by
          rw [hr2] at h2
          simpa [posHit] using h2
        subst he0
        simp only [hr2]
        rw [if_neg (by omega : ¬(0 : Nat) ≠ 0)]
        rw [ih r rs2 s2 stem hit hpre2 hr hpos]
        have hs : seasonAfter (r2 :: rs1) s0 stem = seasonAfter rs1 s2 stem := by
          unfold seasonAfter
          rw [List.foldl_cons]
          simp only [hr2]
        rw [hs]
      | one e2 =>
        have he0 : e2 = 0 := by
          rw [hr2] at h2
          simpa [posHit] using h2
        subst he0
        simp only [hr2]
        rw [if_neg (by omega : ¬(0 : Nat) ≠ 0)]
        rw [ih r rs2 s0 stem hit hpre2 hr hpos]
        have hs : seasonAfter (r2 :: rs1) s0 stem = seasonAfter rs1 s0 stem := by
          unfold seasonAfter
          rw [List.foldl_cons]
          simp only [hr2]
        rw [hs]

theorem searchWith_hit (m : List Char → Option RuleHit) (l : List Char) (h : RuleHit)
    (hm : m l = some h) : searchWith m l = some h := by
  cases l with
  | nil => rw [searchWith, hm]
  | cons c rest => rw [searchWith, hm]

/-- Pattern 1 matches at the head of a canonical `S<digits>E<digits>` stem. -/
theorem rule1At_canon (p2s p2e : List Char)
    (h1 : p2s ≠ []) (h1d : ∀ c ∈ p2s, isDigitC c = true)
    (h2 : p2e ≠ []) (h2d : ∀ c ∈ p2e, isDigitC c = true) :
    rule1At ('S' :: (p2s ++ 'E' :: p2e)) =
      some (RuleHit.two (parseDigs p2s) (parseDigs p2e)) := by
  obtain ⟨htw, hdw⟩ := takeWhile_stop isDigitC p2s 'E' p2e h1d (by rfl)
  have e1 : lowEq 'S' 's' = true := rfl
  have e2 : lowEq 'E' 'e' = true := rfl
  have htw2 : p2e.takeWhile isDigitC = p2e := takeWhile_all isDigitC p2e h2d
  rw [rule1At]
  simp only [e1, if_true, htw, hdw, e2, htw2]
  rw [if_neg h1, if_neg h2]

-- ─────────────────────────────────────────────────────────────
-- Helper lemmas: name generation and classification
-- ─────────────────────────────────────────────────────────────

theorem generate_some_facts (render : Nat → Nat → Option String) (info : EpisodeInfo)
    (nn : String) (h : generate_new_name render info = some nn) :
    strLower (pySuffix info.original_name) ∈ VIDEO_EXTS ∧
    ∃ base, render info.season info.episode = some base ∧
      nn = base ++ strLower (pySuffix info.original_name) := by
  rw [generate_new_name] at h
  by_cases hext : strLower (pySuffix info.original_name) ∈ VIDEO_EXTS
  · rw [if_pos hext] at h
    cases hr : render info.season info.episode with
    | none => rw [hr] at h; exact absurd h (by simp)
    | some base =>
      rw [hr] at h
      have hb : base ++ strLower (pySuffix info.original_name) = nn := by
        simpa using h
      exact ⟨hext, base, rfl, hb.symm⟩
  · rw [if_neg hext] at h
    exact absurd h (by simp)

theorem classify_change_facts (render : Nat → Nat → Option String) (name : String)
    (info : EpisodeInfo) (nn : String) (h : classify render name = FileClass.change info nn) :
    strLower (pySuffix name) ∈ VIDEO_EXTS ∧ parse_episode name = some info ∧
      generate_new_name render info = some nn ∧ nn ≠ name := by
  rw [classify] at h
  by_cases hext : strLower (pySuffix name) ∈ VIDEO_EXTS
  · rw [if_pos hext] at h
    cases hp : parse_episode name with
    | none => simp only [hp] at h; exact absurd h (by simp)
    | some info2 =>
      simp only [hp] at h
      cases hg : generate_new_name render info2 with
      | none => simp only [hg] at h; exact absurd h (by simp)
      | some nn2 =>
        simp only [hg] at h
        by_cases he : nn2 = name
        · rw [if_pos he] at h
          exact absurd h (by simp)
        · rw [if_neg he] at h
          have hinj : info2 = info ∧ nn2 = nn := by
            cases h
            exact ⟨rfl, rfl⟩
          obtain ⟨hi, hn⟩ := hinj
          subst hi
          subst hn
          exact ⟨hext, rfl, hg, he⟩
  · rw [if_neg hext] at h
    exact absurd h (by simp)

theorem planCons_changes (path name : String) (fc : FileClass) (out : PlanOut) :
    (planCons path name fc out).changes =
      match fc with
      | FileClass.change _ nn => (name, nn) :: out.changes
      | _ => out.changes := by
  cases fc <;> rfl

theorem planCons_skipped (path name : String) (fc : FileClass) (out : PlanOut) :
    (planCons path name fc out).skipped =
      match fc with
      | FileClass.nonVideo => name :: out.skipped
      | FileClass.alreadyCorrect _ => name :: out.skipped
      | _ => out.skipped := by
  cases fc <;> rfl

theorem planCons_unparseable (path name : String) (fc : FileClass) (out : PlanOut) :
    (planCons path name fc out).unparseable =
      match fc with
      | FileClass.unparseable => name :: out.unparseable
      | _ => out.unparseable := by
  cases fc <;> rfl

theorem plan_go_changes_mem (render : Nat → Nat → Option String) (path : String) :
    ∀ (files : List RemoteFile) (old nn : String),
      (old, nn) ∈ (plan_go render path files).changes →
      ∃ info, classify render old = FileClass.change info nn := by
  intro files
  induction files with
  | nil => intro old nn h; simp [plan_go] at h
  | cons f rest ih =>
    intro old nn h
    rw [plan_go, planCons_changes] at h
    cases hc : classify render f.name with
    | change info nn2 =>
      rw [hc] at h
      rcases List.mem_cons.mp h with h1 | h1
      · have ha : old = f.name := congrArg Prod.fst h1
        have hb : nn = nn2 := congrArg Prod.snd h1
        subst ha
        refine ⟨info, ?_⟩
        rw [hb]
        exact hc
      · exact ih old nn h1
    | nonVideo => rw [hc] at h; exact ih old nn h
    | unparseable => rw [hc] at h; exact ih old nn h
    | renderFailed info => rw [hc] at h; exact ih old nn h
    | alreadyCorrect info => rw [hc] at h; exact ih old nn h

-- ─────────────────────────────────────────────────────────────
-- Helper lemmas: retry
-- ─────────────────────────────────────────────────────────────

theorem retryRun_ok_head {E A : Type} (op : Nat → Except E A) (k : Nat) (a : A)
    (h : op k = Except.ok a) : ∀ fuel, retryRun op (fuel + 1) k = (some (Except.ok a), 1) := by
  intro fuel
  cases fuel with
  | zero => rw [retryRun, h]
  | succ fuel => rw [retryRun, h]

theorem retryRun_err_head {E A : Type} (op : Nat → Except E A) (k : Nat) (e : E)
    (h : op k = Except.error e) :
    ∀ fuel, retryRun op (fuel + 2) k =
      ((retryRun op (fuel + 1) (k + 1)).1, (retryRun op (fuel + 1) (k + 1)).2 + 1) := by
  intro fuel
  rw [retryRun, h]

theorem retryRun_one {E A : Type} (op : Nat → Except E A) (k : Nat) :
    retryRun op 1 k = (some (op k), 1) := rfl

theorem retry_all_err {E A : Type} (op : Nat → Except E A) (err : Nat → E)
    (h : ∀ k, op k = Except.error (err k)) :
    retry 3 op = (some (Except.error (err 2)), 3) := by
  unfold retry
  have h3 : (3 : Int).toNat = 3 := rfl
  rw [h3]
  rw [retryRun_err_head op 0 (err 0) (h 0) 1]
  rw [retryRun_err_head op 1 (err 1) (h 1) 0]
  rw [retryRun_one, h 2]

theorem retry_ok_first {E A : Type} (op : Nat → Except E A) (a : A)
    (h : op 0 = Except.ok a) : retry 3 op = (some (Except.ok a), 1) := by
  unfold retry
  have h3 : (3 : Int).toNat = 3 := rfl
  rw [h3]
  exact retryRun_ok_head op 0 a h 2

-- ─────────────────────────────────────────────────────────────
-- Helper lemmas: the default template round trip
-- ─────────────────────────────────────────────────────────────

theorem renderParts_default_data (s e : Nat) :
    (renderParts s e defaultTemplate).data =
      'S' :: (padZeros 2 (natToDigits s) ++ 'E' :: padZeros 2 (natToDigits e)) := by
  show ("S" ++ (renderField 2 s ++ ("E" ++ (renderField 2 e ++ "")))).data = _
  rw [str_data_append, str_data_append, str_data_append, str_data_append]
  show ['S'] ++ (padZeros 2 (natToDigits s) ++ (['E'] ++ (padZeros 2 (natToDigits e) ++ []))) = _
  simp

theorem video_ext_props (x : String) (hx : x ∈ VIDEO_EXTS) :
    ∃ t : List Char, x.data = '.' :: t ∧ 0 < t.length ∧
      (∀ c ∈ t, (c == '.') = false) ∧ strLower x = x := by
  fin_cases hx <;> exact ⟨_, rfl, by decide, by decide, by decide⟩

theorem plan_go_cons (render : Nat → Nat → Option String) (path : String) (f : RemoteFile)
    (rest : List RemoteFile) :
    plan_go render path (f :: rest) =
      planCons path f.name (classify render f.name) (plan_go render path rest) := rfl

theorem applyNames_cons (render : Nat → Nat → Option String) (f : RemoteFile)
    (rest : List RemoteFile) :
    applyNames render (f :: rest) =
      { f with name := newNameOf render f.name } :: applyNames render rest := rfl

/-- Re-classifying the name a change renames a file to (default template):
the new name is already correct, with the same season/episode reading. -/
theorem classify_default_change (name : String) (info : EpisodeInfo) (nn : String)
    (h : classify defaultRender name = FileClass.change info nn) :
    classify defaultRender nn =
      FileClass.alreadyCorrect ⟨info.season, info.episode, none, nn, none, ""⟩ := by
  obtain ⟨hext, hp, hg, hne⟩ := classify_change_facts defaultRender name info nn h
  obtain ⟨hep, horig, -, -, -⟩ := parse_go_facts name RULES 1 (splitName name.data).1 info hp
  obtain ⟨hext0, base, hbase, hnn⟩ := generate_some_facts defaultRender info nn hg
  rw [horig] at hnn
  have hbase2 : some (renderParts info.season info.episode defaultTemplate) = some base := hbase
  have hbase3 : base = renderParts info.season info.episode defaultTemplate :=
    (Option.some.inj hbase2).symm
  subst hbase3
  obtain ⟨t, hxdata, htpos, htnd, hfix⟩ := video_ext_props (strLower (pySuffix name)) hext
  have hnd : nn.data =
      (renderParts info.season info.episode defaultTemplate).data ++
        (strLower (pySuffix name)).data := by
    rw [hnn]
    exact str_data_append _ _
  rw [renderParts_default_data] at hnd
  obtain ⟨hs1, hs2, hs3⟩ := pad2_spec 2 info.season
  obtain ⟨he1, he2, he3⟩ := pad2_spec 2 info.episode
  have hsplit : splitName nn.data =
      ('S' :: (padZeros 2 (natToDigits info.season) ++ 'E' :: padZeros 2 (natToDigits info.episode)),
        '.' :: t) := by
    rw [hnd, hxdata]
    exact splitName_of_ext _ t (by simp) htpos htnd
  have hsuf : pySuffix nn = strLower (pySuffix name) := by
    apply str_ext
    show (splitName nn.data).2 = (strLower (pySuffix name)).data
    rw [hsplit, hxdata]
  have hlow : strLower (pySuffix nn) = strLower (pySuffix name) := by
    rw [hsuf, hfix]
  have hr1 : RULE1 (splitName nn.data).1 = some (RuleHit.two info.season info.episode) := by
    rw [show (splitName nn.data).1 =
      'S' :: (padZeros 2 (natToDigits info.season) ++ 'E' :: padZeros 2 (natToDigits info.episode))
      from by rw [hsplit]]
    have hcanon := rule1At_canon _ _ hs3 hs2 he3 he2
    rw [hs1, he1] at hcanon
    exact searchWith_hit rule1At _ _ hcanon
  have hpnn : parse_episode nn = some ⟨info.season, info.episode, none, nn, none, ""⟩ := by
    rw [parse_episode]
    rw [show RULES = RULE1 :: [RULE2, RULE3, RULE4, RULE5, RULE6] from rfl]
    rw [parse_go]
    simp only [hr1]
    rw [if_pos (show info.episode ≠ 0 by omega)]
  have hgen2 : generate_new_name defaultRender
      (⟨info.season, info.episode, none, nn, none, ""⟩ : EpisodeInfo) = some nn := by
    show (if strLower (pySuffix nn) ∈ VIDEO_EXTS then
        match defaultRender info.season info.episode with
        | some base => some (base ++ strLower (pySuffix nn))
        | none => none
      else none) = some nn
    rw [if_pos (by rw [hlow]; exact hext)]
    show some (renderParts info.season info.episode defaultTemplate ++ strLower (pySuffix nn)) =
      some nn
    rw [hlow, ← hnn]
  rw [classify]
  rw [if_pos (show strLower (pySuffix nn) ∈ VIDEO_EXTS by rw [hlow]; exact hext)]
  simp only [hpnn, hgen2]
  simp

theorem classify_newNameOf_not_change (name : String) (info : EpisodeInfo) (nn : String) :
    classify defaultRender (newNameOf defaultRender name) ≠ FileClass.change info nn := by
  cases hc : classify defaultRender name with
  | change i0 n0 =>
    have hn : newNameOf defaultRender name = n0 := by
      rw [newNameOf]
      simp only [hc]
    rw [hn, classify_default_change name i0 n0 hc]
    simp
  | nonVideo =>
    have hn : newNameOf defaultRender name = name := by
      rw [newNameOf]
      simp only [hc]
    rw [hn, hc]
    simp
  | unparseable =>
    have hn : newNameOf defaultRender name = name := by
      rw [newNameOf]
      simp only [hc]
    rw [hn, hc]
    simp
  | renderFailed i0 =>
    have hn : newNameOf defaultRender name = name := by
      rw [newNameOf]
      simp only [hc]
    rw [hn, hc]
    simp
  | alreadyCorrect i0 =>
    have hn : newNameOf defaultRender name = name := by
      rw [newNameOf]
      simp only [hc]
    rw [hn, hc]
    simp

theorem plan_go_applyNames_changes (path : String) :
    ∀ files : List RemoteFile,
      (plan_go defaultRender path (applyNames defaultRender files)).changes = [] := by
  intro files
  induction files with
  | nil => rfl
  | cons f rest ih =>
    rw [applyNames_cons, plan_go_cons, planCons_changes]
    have hname : ({ f with name := newNameOf defaultRender f.name } : RemoteFile).name =
        newNameOf defaultRender f.name := rfl
    rw [hname]
    cases hc : classify defaultRender (newNameOf defaultRender f.name) with
    | change i0 n0 => exact absurd hc (classify_newNameOf_not_change f.name i0 n0)
    | nonVideo => simp only [hc]; exact ih
    | unparseable => simp only [hc]; exact ih
    | renderFailed i0 => simp only [hc]; exact ih
    | alreadyCorrect i0 => simp only [hc]; exact ih

-- ─────────────────────────────────────────────────────────────
-- Helper lemmas: listings
-- ─────────────────────────────────────────────────────────────

theorem pyEqFalse_iff (o : Option Bool) : pyEqFalse o = true ↔ o = some false := by
  cases o with
  | none => simp [pyEqFalse]
  | some b => cases b <;> simp [pyEqFalse]

-- ─────────────────────────────────────────────────────────────
-- Claim C1
-- ─────────────────────────────────────────────────────────────

/-- C1 (amended): the rules are tried in their fixed priority order on the
extension-stripped stem, and the first rule whose regex matches with a
nonzero extracted episode determines the (season, episode) interpretation —
no rule after it can influence the result (the tail `rs2` is arbitrary).  A
rule that matches with episode 0 does not end the search; the season
captured by a two-group episode-0 match persists as the season default for
later one-group rules (`seasonAfter`). -/
theorem c1_priority_first_positive_match (filename : String)
    (rs1 : List (List Char → Option RuleHit)) (r : List Char → Option RuleHit)
    (rs2 : List (List Char → Option RuleHit)) (hit : RuleHit)
    (hsplit : RULES = rs1 ++ r :: rs2)
    (hpre : ∀ r2 ∈ rs1, posHit (r2 (splitName filename.data).1) = false)
    (hhit : r (splitName filename.data).1 = some hit)
    (hpos : posHit (some hit) = true) :
    parse_episode filename =
      some (interpInfo filename (seasonAfter rs1 1 (splitName filename.data).1) hit) := by
  rw [parse_episode, hsplit]
  exact parse_go_split filename rs1 r rs2 1 (splitName filename.data).1 hit hpre hhit hpos

/-- C1 counterexample: on `"S2E0 第3集.mkv"` rule 1 matches the stem (with
interpretation season 2, episode 0), yet a later rule (rule 4) determines
the result (2, 3) — so the first matching rule does not decide and later
rules are consulted. -/
theorem c1_counterexample :
    RULE1 (splitName ("S2E0 第3集.mkv").data).1 = some (RuleHit.two 2 0) ∧
    RULE4 (splitName ("S2E0 第3集.mkv").data).1 = some (RuleHit.one 3) ∧
    parse_episode "S2E0 第3集.mkv" = some ⟨2, 3, none, "S2E0 第3集.mkv", none, ""⟩ ∧
    Option.map (fun i : EpisodeInfo => (i.season, i.episode))
        (parse_episode "S2E0 第3集.mkv") ≠ some (2, 0) := by
  decide

/-- C1 witness: `"第04集.avi"` is decided by rule 4, the first rule with a
positive hit; the first three rules produce no positive hit. -/
theorem c1_witness :
    parse_episode "第04集.avi" = some ⟨1, 4, none, "第04集.avi", none, ""⟩ := by
  have hpre : ∀ r2 ∈ [RULE1, RULE2, RULE3],
      posHit (r2 (splitName ("第04集.avi").data).1) = false := by
    intro r2 h2
    fin_cases h2 <;> decide
  exact c1_priority_first_positive_match "第04集.avi" [RULE1, RULE2, RULE3] RULE4
    [RULE5, RULE6] (RuleHit.one 4) rfl hpre (by decide) (by decide)

-- ─────────────────────────────────────────────────────────────
-- Claim C2
-- ─────────────────────────────────────────────────────────────

/-- C2: the executor produces exactly one RenameResult per change, in input
order (it is a map over the change list, so lengths agree and one entry's
outcome cannot affect any other's); each result copies its change's old and
new names, and succeeds exactly when the backend call returns `ok true` —
both a returned `false` and a raised exception yield a failed result for
that change only. -/
theorem c2_executor_batch (rename : String → String → Except String Bool) (path : String)
    (changes : List (String × String)) :
    apply_changes rename path changes = changes.map (applyOne rename path) ∧
    (apply_changes rename path changes).length = changes.length ∧
    ∀ c : String × String,
      (applyOne rename path c).old_name = c.1 ∧
      (applyOne rename path c).new_name = c.2 ∧
      (applyOne rename path c).success =
        (match rename (joinPath path c.1) c.2 with
         | Except.ok true => true
         | _ => false) := by
  have hmap : ∀ cs : List (String × String),
      apply_changes rename path cs = cs.map (applyOne rename path) := by
    intro cs
    induction cs with
    | nil => rfl
    | cons c rest ih => rw [apply_changes, List.map_cons, ih]
  refine ⟨hmap changes, ?_, ?_⟩
  · rw [hmap changes, List.length_map]
  · intro c
    rw [applyOne]
    cases hr : rename (joinPath path c.1) c.2 with
    | ok b =>
      cases b with
      | true => simp only [hr]; exact ⟨trivial, trivial, trivial⟩
      | false => simp only [hr]; exact ⟨trivial, trivial, trivial⟩
    | error e => simp only [hr]; exact ⟨trivial, trivial, trivial⟩

-- ─────────────────────────────────────────────────────────────
-- Claim C3
-- ─────────────────────────────────────────────────────────────

/-- C3 (amended): the matcher returns none exactly when no rule matches the
stem with a nonzero episode; every returned EpisodeInfo has episode ≥ 1
(season defaults to 1 for one-group rules except when an earlier two-group
rule matched with episode 0 and its captured season carried over); an
unparseable video file is merely counted unparseable and contributes no
change — subsequent files are still processed. -/
theorem c3_unparseable_classification :
    (∀ f : String,
      parse_episode f = none ↔
        RULES.any (fun r => posHit (r (splitName f.data).1)) = false) ∧
    (∀ (f : String) (info : EpisodeInfo), parse_episode f = some info → 1 ≤ info.episode) ∧
    (∀ (render : Nat → Nat → Option String) (path : String) (f : RemoteFile)
      (rest : List RemoteFile),
      strLower (pySuffix f.name) ∈ VIDEO_EXTS → parse_episode f.name = none →
        (plan_go render path (f :: rest)).changes = (plan_go render path rest).changes ∧
        f.name ∈ (plan_go render path (f :: rest)).unparseable) := by
  refine ⟨?_, ?_, ?_⟩
  · intro f
    have hs : (parse_episode f).isSome =
        RULES.any (fun r => posHit (r (splitName f.data).1)) :=
      parse_go_isSome f RULES 1 (splitName f.data).1
    constructor
    · intro h
      rw [h] at hs
      simpa using hs.symm
    · intro h
      rw [h] at hs
      cases hpe : parse_episode f with
      | none => rfl
      | some v => rw [hpe] at hs; simp at hs
  · intro f info h
    exact (parse_go_facts f RULES 1 (splitName f.data).1 info h).1
  · intro render path f rest hext hnone
    have hcl : classify render f.name = FileClass.unparseable := by
      rw [classify, if_pos hext]
      simp only [hnone]
    constructor
    · rw [plan_go_cons, planCons_changes]
      simp only [hcl]
    · rw [plan_go_cons, planCons_unparseable]
      simp only [hcl]
      exact List.mem_cons_self _ _

/-- C3 counterexample: on `"S5E0 07話.mp4"` rule 1 matches with episode
resolving to 0 yet the matcher does not return none, and the one-group rule
(rule 6) that decides yields season 5, not the claimed default 1. -/
theorem c3_counterexample :
    RULE1 (splitName ("S5E0 07話.mp4").data).1 = some (RuleHit.two 5 0) ∧
    RULE6 (splitName ("S5E0 07話.mp4").data).1 = some (RuleHit.one 7) ∧
    parse_episode "S5E0 07話.mp4" = some ⟨5, 7, none, "S5E0 07話.mp4", none, ""⟩ ∧
    Option.map (fun i : EpisodeInfo => i.season) (parse_episode "S5E0 07話.mp4") ≠
      some 1 := by
  decide

/-- C3 witness: `"EP12.mkv"` parses (via rule 5) and the theorem yields
episode ≥ 1 for it. -/
theorem c3_witness : 1 ≤ ((⟨1, 12, none, "EP12.mkv", none, ""⟩ : EpisodeInfo)).episode :=
  c3_unparseable_classification.2.1 "EP12.mkv" ⟨1, 12, none, "EP12.mkv", none, ""⟩ (by decide)

-- ─────────────────────────────────────────────────────────────
-- Claim C4
-- ─────────────────────────────────────────────────────────────

/-- C4: every change the planner emits renames to a different name and
concerns a file whose lowercased extension is in the fixed video set (for
any template render function and any entry list), and a video file whose
rendered name equals its current name is counted in the skipped
(already-correct) list with no change emitted for it. -/
theorem c4_change_invariants :
    (∀ (render : Nat → Nat → Option String) (path : String) (files : List RemoteFile)
      (old nn : String),
      (old, nn) ∈ (process_directory render path files).2 →
        strLower (pySuffix old) ∈ VIDEO_EXTS ∧ nn ≠ old) ∧
    (∀ (render : Nat → Nat → Option String) (path : String) (f : RemoteFile)
      (rest : List RemoteFile) (info : EpisodeInfo),
      classify render f.name = FileClass.alreadyCorrect info →
        (plan_go render path (f :: rest)).changes = (plan_go render path rest).changes ∧
        f.name ∈ (plan_go render path (f :: rest)).skipped) := by
  constructor
  · intro render path files old nn h
    have h2 : (old, nn) ∈ (plan_go render path files).changes := by
      rw [process_directory] at h
      by_cases hnil : files = []
      · rw [if_pos hnil] at h
        simp at h
      · rw [if_neg hnil] at h
        exact h
    obtain ⟨info, hcl⟩ := plan_go_changes_mem render path files old nn h2
    obtain ⟨hext, -, -, hne⟩ := classify_change_facts render old info nn hcl
    exact ⟨hext, hne⟩
  · intro render path f rest info hcl
    constructor
    · rw [plan_go_cons, planCons_changes]
      simp only [hcl]
    · rw [plan_go_cons, planCons_skipped]
      simp only [hcl]
      exact List.mem_cons_self _ _

/-- C4 witness: the single emitted change for `"a.S01E05.mp4"` satisfies
both invariants. -/
theorem c4_witness :
    strLower (pySuffix "a.S01E05.mp4") ∈ VIDEO_EXTS ∧ "S01E05.mp4" ≠ "a.S01E05.mp4" :=
  c4_change_invariants.1 defaultRender "/" [⟨"a.S01E05.mp4", some false, none, none⟩]
    "a.S01E05.mp4" "S01E05.mp4" (by decide)

-- ─────────────────────────────────────────────────────────────
-- Claim C5
-- ─────────────────────────────────────────────────────────────

/-- C5: with maxAttempts = 3, an operation that raises on every invocation
is invoked exactly 3 times and the third invocation's exception is
propagated; retries happen only on exceptions — an invocation that returns
normally (after j failing ones, j < 3) ends retrying immediately with that
value after j + 1 invocations. -/
theorem c5_retry_three (E A : Type) :
    (∀ (op : Nat → Except E A) (err : Nat → E),
      (∀ k, op k = Except.error (err k)) →
        retry 3 op = (some (Except.error (err 2)), 3)) ∧
    (∀ (op : Nat → Except E A) (j : Nat) (a : A),
      j < 3 → (∀ i, i < j → ∃ e, op i = Except.error e) → op j = Except.ok a →
        retry 3 op = (some (Except.ok a), j + 1)) := by
  constructor
  · intro op err h
    exact retry_all_err op err h
  · intro op j a hj hpre hok
    interval_cases j
    · exact retry_ok_first op a hok
    · obtain ⟨e0, h0⟩ := hpre 0 (by omega)
      unfold retry
      rw [show (3 : Int).toNat = 3 from rfl]
      rw [retryRun_err_head op 0 e0 h0 1]
      rw [retryRun_ok_head op 1 a hok 1]
    · obtain ⟨e0, h0⟩ := hpre 0 (by omega)
      obtain ⟨e1, h1⟩ := hpre 1 (by omega)
      unfold retry
      rw [show (3 : Int).toNat = 3 from rfl]
      rw [retryRun_err_head op 0 e0 h0 1]
      rw [retryRun_err_head op 1 e1 h1 0]
      rw [retryRun_one, hok]

/-- C5 witness: the always-failing operation `fun k => error k` under 3
attempts is invoked 3 times and the final error (2) propagates. -/
theorem c5_witness :
    retry 3 (fun k => (Except.error k : Except Nat Nat)) = (some (Except.error 2), 3) :=
  (c5_retry_three Nat Nat).1 (fun k => Except.error k) (fun k => k) (fun _ => rfl)

-- ─────────────────────────────────────────────────────────────
-- Claim C6
-- ─────────────────────────────────────────────────────────────

/-- C6 (amended): planning is a pure function of its inputs (the embedding
is functional), and for the DEFAULT template `S{season:02d}E{episode:02d}`
the round trip holds: re-planning after fully applying a produced plan
yields zero changes.  For adversarial templates whose rendered names
re-parse to a different (season, episode) the round trip fails (see the
counterexample). -/
theorem c6_plan_roundtrip (path : String) (files : List RemoteFile) :
    (process_directory defaultRender path (applyNames defaultRender files)).2 = [] := by
  rw [process_directory]
  by_cases hnil : applyNames defaultRender files = []
  · rw [if_pos hnil]
  · rw [if_neg hnil]
    exact plan_go_applyNames_changes path files

/-- C6 counterexample: with template `E{episode:02d}x{season:02d}` the file
`"S01E03.mkv"` is renamed to `"E03x01.mkv"`, which re-parses as season 3,
episode 1, so the second planning run emits a further change — the round
trip fails for this template. -/
theorem c6_counterexample :
    (process_directory (renderTemplate badTemplate) "/"
        [⟨"S01E03.mkv", some false, none, none⟩]).2 =
      [("S01E03.mkv", "E03x01.mkv")] ∧
    (process_directory (renderTemplate badTemplate) "/"
        (applyNames (renderTemplate badTemplate) [⟨"S01E03.mkv", some false, none, none⟩])).2 =
      [("E03x01.mkv", "E01x03.mkv")] := by
  decide

-- ─────────────────────────────────────────────────────────────
-- Claim C7
-- ─────────────────────────────────────────────────────────────

/-- C7: for both backends, a well-formed response on the first attempt ends
the call after exactly one invocation with `ok true` iff the remote code is
the success code (Alist 200 / cloud-netdisk errno 0) and `ok false`
otherwise — a false return is never an exception and never retried; a
transport failure on every attempt exhausts the 3-attempt retry bound and
propagates the third attempt's exception. -/
theorem c7_backend_rename_contract :
    (∀ (resp : Nat → Except String AlistResp) (r : AlistResp), resp 0 = Except.ok r →
      alist_rename_file resp =
        (some (Except.ok (if r.code = some 200 then true else false)), 1)) ∧
    (∀ (resp : Nat → Except String AlistResp) (err : Nat → String),
      (∀ k, resp k = Except.error (err k)) →
        alist_rename_file resp = (some (Except.error (err 2)), 3)) ∧
    (∀ (resp : Nat → Except String BaiduResp) (r : BaiduResp), resp 0 = Except.ok r →
      baidu_rename_file resp =
        (some (Except.ok (if r.errno = some 0 then true else false)), 1)) ∧
    (∀ (resp : Nat → Except String BaiduResp) (err : Nat → String),
      (∀ k, resp k = Except.error (err k)) →
        baidu_rename_file resp = (some (Except.error (err 2)), 3)) := by
  refine ⟨?_, ?_, ?_, ?_⟩
  · intro resp r h
    apply retry_ok_first
    rw [alist_rename_raw, h]
  · intro resp err h
    apply retry_all_err
    intro k
    rw [alist_rename_raw, h k]
  · intro resp r h
    apply retry_ok_first
    rw [baidu_rename_raw, h]
  · intro resp err h
    apply retry_all_err
    intro k
    rw [baidu_rename_raw, h k]

/-- C7 witness: Alist code 403 yields `ok false` after one invocation (no
retry); cloud-netdisk errno 0 yields `ok true` after one invocation. -/
theorem c7_witness :
    alist_rename_file (fun _ => Except.ok ⟨some 403, none⟩) = (some (Except.ok false), 1) ∧
    baidu_rename_file (fun _ => Except.ok ⟨some 0, none⟩) = (some (Except.ok true), 1) := by
  constructor
  · have h := c7_backend_rename_contract.1 (fun _ => Except.ok ⟨some 403, none⟩)
      ⟨some 403, none⟩ rfl
    simpa using h
  · have h := c7_backend_rename_contract.2.2.1 (fun _ => Except.ok ⟨some 0, none⟩)
      ⟨some 0, none⟩ rfl
    simpa using h

-- ─────────────────────────────────────────────────────────────
-- Claim C8
-- ─────────────────────────────────────────────────────────────

/-- C8: every generated new name ends with the lowercased original
extension; consequently `"S01E02.MKV"` (stem already equal to the rendered
default template, extension uppercase) gets a RenameChange to
`"S01E02.mkv"` rather than being classified already-correct. -/
theorem c8_lowercase_extension :
    (∀ (render : Nat → Nat → Option String) (info : EpisodeInfo) (nn : String),
      generate_new_name render info = some nn →
        ∃ b : String, nn = b ++ strLower (pySuffix info.original_name)) ∧
    (process_directory defaultRender "/" [⟨"S01E02.MKV", some false, none, none⟩]).2 =
      [("S01E02.MKV", "S01E02.mkv")] := by
  constructor
  · intro render info nn h
    obtain ⟨-, base, -, hnn⟩ := generate_some_facts render info nn h
    exact ⟨base, hnn⟩
  · decide

/-- C8 witness: the generated name for an `".MKV"` file ends with the
lowercased extension `".mkv"`. -/
theorem c8_witness :
    ∃ b : String, "S01E02.mkv" = b ++ strLower (pySuffix "S01E02.MKV") :=
  c8_lowercase_extension.1 defaultRender ⟨1, 2, none, "S01E02.MKV", none, ""⟩
    "S01E02.mkv" (by decide)

-- ─────────────────────────────────────────────────────────────
-- Claim C9
-- ─────────────────────────────────────────────────────────────

/-- C9: the retry wrapper with maxAttempts ≤ 0 never enters its loop, so the
wrapped operation is invoked 0 times and the wrapper returns no result
(Python None) instead of raising or returning a value. -/
theorem c9_retry_nonpositive (E A : Type) (m : Int) (op : Nat → Except E A) (h : m ≤ 0) :
    retry m op = (none, 0) := by
  unfold retry
  rw [Int.toNat_of_nonpos h]
  rfl

/-- C9 witness: maxAttempts = -1 with an always-succeeding operation still
returns no result with zero invocations. -/
theorem c9_witness : retry (-1) (fun k => (Except.ok k : Except Nat Nat)) = (none, 0) :=
  c9_retry_nonpositive Nat Nat (-1) (fun k => Except.ok k) (by decide)

-- ─────────────────────────────────────────────────────────────
-- Claim C10
-- ─────────────────────────────────────────────────────────────

/-- C10: for both backends, `list_files` keeps exactly the entries whose
`is_dir` field is present and equal to false; an entry lacking the field is
silently excluded (for the cloud-netdisk backend the field is always set by
normalisation before the filter, and every returned entry has it false). -/
theorem c10_list_files_filter :
    (∀ (content : List RemoteFile) (e : RemoteFile),
      e ∈ alist_list_files content ↔ e ∈ content ∧ e.is_dir = some false) ∧
    (∀ (content : List RemoteFile) (e : RemoteFile),
      e.is_dir = none → e ∉ alist_list_files content) ∧
    (∀ (raw : List RemoteFile) (e : RemoteFile),
      e ∈ baidu_list_files raw → e.is_dir = some false) := by
  have hmem : ∀ (content : List RemoteFile) (e : RemoteFile),
      e ∈ alist_list_files content ↔ e ∈ content ∧ e.is_dir = some false := by
    intro content e
    rw [alist_list_files, List.mem_filter, pyEqFalse_iff]
  refine ⟨hmem, ?_, ?_⟩
  · intro content e hnone hin
    have h2 := (hmem content e).mp hin
    rw [hnone] at h2
    exact Option.noConfusion h2.2
  · intro raw e h
    rw [baidu_list_files, List.mem_filter] at h
    exact (pyEqFalse_iff e.is_dir).mp h.2

/-- C10 witness: an entry with no `is_dir` field is not returned by the
file-only listing. -/
theorem c10_witness :
    (⟨"x", none, none, none⟩ : RemoteFile) ∉
      alist_list_files [⟨"x", none, none, none⟩] :=
  c10_list_files_filter.2.1 [⟨"x", none, none, none⟩] ⟨"x", none, none, none⟩ rfl
